import Mathlib

/-!
Verification development for the webshot screenshot service.

Each definition is a shallow embedding of a function of the source tree;
the doc comment of a definition names the source file and lines it embeds.
Asynchronous effects (HTTP fetches, the browser engine, the Postgres pool
and the S3 blob store) are modelled as explicit environments passed to the
embedded functions; interleaving of `async` functions is modelled by
small-step transition relations whose steps correspond to the code
between two `await` points.
-/

namespace Webshot

namespace Sitemap

/-- A `<url>` entry parsed from a leaf sitemap: `SitemapUrl` of
`src/types/index.ts` as produced by `parseSitemapUrls`
(src/unnamed/part_004, lines 69-99).  `priority` is kept as the raw
trimmed text preceding the `parseFloat` call, since no claim depends on
its numeric value. -/
structure SitemapUrl where
  loc : String
  lastmod : Option String
  priority : Option String
deriving DecidableEq, Repr

/-- Result of `collectAllUrls` (src/unnamed/part_004): `SitemapResult` of
`src/types/index.ts`, a list of page URLs plus a list of soft-error
strings. -/
structure SitemapResult where
  urls : List SitemapUrl
  errors : List String
deriving DecidableEq, Repr

/-- The regex-extracted fields of one `<url>...</url>` block of a leaf
sitemap, as matched by the three regexes of `parseSitemapUrls`
(src/unnamed/part_004, lines 81-89): the `<loc>` text when the block has
one, and the optional `<lastmod>` / `<priority>` texts. -/
structure UrlBlock where
  locText : Option String
  lastmodText : Option String
  priorityText : Option String
deriving DecidableEq, Repr

/-- JS `String.prototype.trim`, as an executable character-list
computation (whitespace per `Char.isWhitespace`, which covers the
characters relevant here). -/
def trimText (s : String) : String :=
  ⟨((s.data.dropWhile Char.isWhitespace).reverse.dropWhile Char.isWhitespace).reverse⟩

/-- Function `parseSitemapUrls` (src/unnamed/part_004, lines 69-99), embedded over
the per-block regex captures: a block with no `<loc>` or a
whitespace-only `<loc>` is skipped (`continue`), any other `<loc>` text
is kept verbatim after trimming, with the optional fields trimmed
alongside.  Note that no URL validation of any kind happens here. -/
def parseSitemapUrls (blocks : List UrlBlock) : List SitemapUrl :=
  blocks.filterMap fun b =>
    match b.locText with
    | none => none
    | some t =>
      let loc := trimText t
      if loc = "" then none
      else some { loc := loc,
                  lastmod := b.lastmodText.map trimText,
                  priority := b.priorityText.map trimText }

/-- Constant `MAX_SITEMAP_DEPTH` (src/unnamed/part_004, line 8). -/
def MAX_SITEMAP_DEPTH : Nat := 3

/-- What fetching and classifying one sitemap URL yields inside
`collectAllUrls`: either `fetchUrl` throws (HTTP error / timeout), or the
document is a sitemap index (`isSitemapIndex` true, child URLs as
extracted by `parseSitemapIndex`), or it is a leaf sitemap (entries as
extracted by `parseSitemapUrls`).  The network and the two regex parsers
are external effects, so they enter the embedding as this environment. -/
inductive FetchOutcome where
  | failure (message : String)
  | indexDoc (sitemaps : List String)
  | leafDoc (urls : List SitemapUrl)
deriving DecidableEq, Repr

/-- The soft error recorded when `depth >= MAX_SITEMAP_DEPTH`
(src/unnamed/part_004, line 189). -/
def depthError (sitemapUrl : String) : String :=
  "Max sitemap depth (" ++ toString MAX_SITEMAP_DEPTH ++ ") reached at " ++ sitemapUrl

/-- The soft error recorded when fetching a sitemap throws
(src/unnamed/part_004, line 227). -/
def fetchError (sitemapUrl message : String) : String :=
  "Failed to fetch " ++ sitemapUrl ++ ": " ++ message

mutual

/-- The body of `collectAllUrls` (src/unnamed/part_004, lines 178-232)
with the recursion depth re-expressed as fuel `MAX_SITEMAP_DEPTH - depth`:
fuel `0` is exactly `depth >= MAX_SITEMAP_DEPTH` (the depth soft error),
and the recursive call at `depth + 1` becomes a call at `fuel - 1`.
A failed fetch is the catch block (lines 225-229); an index document
enters the nested loop (lines 199-215); a leaf document is truncated to
the remaining budget `maxPages - result.urls.length` with `result.urls`
still empty at that point (lines 218-223). -/
def collectGo (env : String → FetchOutcome) :
    Nat → String → Nat → SitemapResult
  | 0, sitemapUrl, _ =>
    { urls := [], errors := [depthError sitemapUrl] }
  | fuel + 1, sitemapUrl, maxPages =>
    match env sitemapUrl with
    | .failure msg => { urls := [], errors := [fetchError sitemapUrl msg] }
    | .indexDoc nestedUrls =>
      collectLoop env fuel maxPages nestedUrls { urls := [], errors := [] }
    | .leafDoc urls => { urls := urls.take maxPages, errors := [] }

/-- The `for (const nestedUrl of nestedUrls)` loop of `collectAllUrls`
(src/unnamed/part_004, lines 202-215): break once the accumulated URL
list reaches `maxPages`, otherwise recurse one level deeper with the
remaining budget and append both the URLs and the soft errors of the
nested result. -/
def collectLoop (env : String → FetchOutcome) (fuel : Nat) (maxPages : Nat) :
    List String → SitemapResult → SitemapResult
  | [], result => result
  | nestedUrl :: rest, result =>
    if maxPages ≤ result.urls.length then result
    else
      let nested := collectGo env fuel nestedUrl (maxPages - result.urls.length)
      collectLoop env fuel maxPages rest
        { urls := result.urls ++ nested.urls,
          errors := result.errors ++ nested.errors }

end

/-- Function `collectAllUrls(sitemapUrl, maxPages, depth)`
(src/unnamed/part_004, lines 178-232): the entry `depth >= MAX_SITEMAP_DEPTH`
check and the `depth + 1` recursion are carried by the fuel
`MAX_SITEMAP_DEPTH - depth` of `collectGo`. -/
def collectAllUrls (env : String → FetchOutcome) (sitemapUrl : String)
    (maxPages : Nat) (depth : Nat) : SitemapResult :=
  collectGo env (MAX_SITEMAP_DEPTH - depth) sitemapUrl maxPages

theorem collectLoop_urls_le (env : String → FetchOutcome) (fuel maxPages : Nat)
    (hGo : ∀ url mp, (collectGo env fuel url mp).urls.length ≤ mp) :
    ∀ (l : List String) (acc : SitemapResult),
      acc.urls.length ≤ maxPages →
      (collectLoop env fuel maxPages l acc).urls.length ≤ maxPages := by
  intro l
  induction l with
  | nil => intro acc hacc; simpa [collectLoop] using hacc
  | cons u rest ih =>
    intro acc hacc
    by_cases hfull : maxPages ≤ acc.urls.length
    · simpa [collectLoop, hfull] using hacc
    · have hrec := hGo u (maxPages - acc.urls.length)
      have hlen : acc.urls.length + (collectGo env fuel u (maxPages - acc.urls.length)).urls.length
          ≤ maxPages := by omega
      simp only [collectLoop, hfull, if_false]
      exact ih _ (by simpa using hlen)

theorem collectGo_urls_le (env : String → FetchOutcome) :
    ∀ (fuel : Nat) (url : String) (mp : Nat),
      (collectGo env fuel url mp).urls.length ≤ mp := by
  intro fuel
  induction fuel with
  | zero => intro url mp; simp [collectGo]
  | succ fuel ih =>
    intro url mp
    cases henv : env url with
    | failure msg => simp [collectGo, henv]
    | indexDoc nested =>
      simp only [collectGo, henv]
      exact collectLoop_urls_le env fuel mp ih nested { urls := [], errors := [] } (by simp)
    | leafDoc urls =>
      simp [collectGo, henv, List.length_take]

/-- C3: for every fetch environment, starting sitemap URL, budget
`maxPages ≥ 1` and depth, `collectAllUrls` returns at most `maxPages`
URLs; and a call at or beyond `MAX_SITEMAP_DEPTH` contributes no URLs at
all, returning exactly the depth soft error instead. -/
theorem collectAllUrls_respects_maxPages_and_depth
    (env : String → FetchOutcome) (sitemapUrl : String) (maxPages depth : Nat)
    (hmax : 1 ≤ maxPages) :
    (collectAllUrls env sitemapUrl maxPages depth).urls.length ≤ maxPages ∧
    (MAX_SITEMAP_DEPTH ≤ depth →
      collectAllUrls env sitemapUrl maxPages depth =
        { urls := [], errors := [depthError sitemapUrl] }) := by
  constructor
  · exact collectGo_urls_le env _ sitemapUrl maxPages
  · intro hdepth
    have hfuel : MAX_SITEMAP_DEPTH - depth = 0 := Nat.sub_eq_zero_of_le hdepth
    simp [collectAllUrls, hfuel, collectGo]

/-- A concrete environment used to instantiate the C3 theorem: a root
index with one nested leaf sitemap of three entries. -/
def envDepth : String → FetchOutcome := fun url =>
  if url = "https://ex.com/sitemap.xml" then
    .indexDoc ["https://ex.com/sub.xml"]
  else
    .leafDoc [{ loc := "https://ex.com/a", lastmod := none, priority := none },
              { loc := "https://ex.com/b", lastmod := none, priority := none },
              { loc := "https://ex.com/c", lastmod := none, priority := none }]

/-- Witness for the C3 theorem at a concrete input: budget 2, and a call
at depth 3 (the maximum) yielding only the depth soft error. -/
theorem collectAllUrls_respects_maxPages_and_depth_witness :
    (1 ≤ 2 ∧
      ((collectAllUrls envDepth "https://ex.com/sitemap.xml" 2 0).urls.length ≤ 2 ∧
        (MAX_SITEMAP_DEPTH ≤ 0 →
          collectAllUrls envDepth "https://ex.com/sitemap.xml" 2 0 =
            { urls := [], errors := [depthError "https://ex.com/sitemap.xml"] }))) ∧
    (1 ≤ 2 ∧
      ((collectAllUrls envDepth "https://ex.com/sub.xml" 2 3).urls.length ≤ 2 ∧
        (MAX_SITEMAP_DEPTH ≤ 3 →
          collectAllUrls envDepth "https://ex.com/sub.xml" 2 3 =
            { urls := [], errors := [depthError "https://ex.com/sub.xml"] }))) :=
  ⟨⟨by decide,
    collectAllUrls_respects_maxPages_and_depth envDepth "https://ex.com/sitemap.xml" 2 0
      (by decide)⟩,
   ⟨by decide,
    collectAllUrls_respects_maxPages_and_depth envDepth "https://ex.com/sub.xml" 2 3
      (by decide)⟩⟩

theorem collectLoop_of_full (env : String → FetchOutcome) (fuel maxPages : Nat)
    (l : List String) (acc : SitemapResult) (hfull : maxPages ≤ acc.urls.length) :
    collectLoop env fuel maxPages l acc = acc := by
  cases l with
  | nil => simp [collectLoop]
  | cons u rest => simp [collectLoop, hfull]

theorem collectLoop_append (env : String → FetchOutcome) (fuel maxPages : Nat)
    (l₁ l₂ : List String) (acc : SitemapResult) :
    collectLoop env fuel maxPages (l₁ ++ l₂) acc =
      collectLoop env fuel maxPages l₂ (collectLoop env fuel maxPages l₁ acc) := by
  induction l₁ generalizing acc with
  | nil => simp [collectLoop]
  | cons u rest ih =>
    by_cases hfull : maxPages ≤ acc.urls.length
    · rw [List.cons_append]
      simp only [collectLoop, hfull, if_true]
      exact (collectLoop_of_full env fuel maxPages l₂ acc hfull).symm
    · rw [List.cons_append]
      simp only [collectLoop, hfull, if_false]
      exact ih _

theorem collectLoop_urls_congr (env : String → FetchOutcome) (fuel maxPages : Nat)
    (l : List String) (acc₁ acc₂ : SitemapResult) (h : acc₁.urls = acc₂.urls) :
    (collectLoop env fuel maxPages l acc₁).urls =
      (collectLoop env fuel maxPages l acc₂).urls := by
  induction l generalizing acc₁ acc₂ with
  | nil => simpa [collectLoop] using h
  | cons u rest ih =>
    by_cases hfull : maxPages ≤ acc₁.urls.length
    · have hfull₂ : maxPages ≤ acc₂.urls.length := by rw [← h]; exact hfull
      simpa [collectLoop, hfull, hfull₂] using h
    · have hfull₂ : ¬ maxPages ≤ acc₂.urls.length := by rw [← h]; exact hfull
      simp only [collectLoop, hfull, hfull₂, if_false, h]
      exact ih _ _ (by simp [h])

/-- A sitemap whose fetch fails contributes no URLs, so deleting it from
an index's child list leaves the collected URL list unchanged. -/
theorem collectLoop_urls_skip_failure (env : String → FetchOutcome)
    (fuel maxPages : Nat) (failUrl msg : String)
    (hfail : env failUrl = .failure msg) :
    ∀ (l₁ l₂ : List String) (acc : SitemapResult),
      (collectLoop env fuel maxPages (l₁ ++ failUrl :: l₂) acc).urls =
        (collectLoop env fuel maxPages (l₁ ++ l₂) acc).urls := by
  intro l₁
  induction l₁ with
  | nil =>
    intro l₂ acc
    by_cases hfull : maxPages ≤ acc.urls.length
    · rw [List.nil_append, List.nil_append, collectLoop_of_full env fuel maxPages _ acc hfull,
        collectLoop_of_full env fuel maxPages _ acc hfull]
    · have hnested : (collectGo env fuel failUrl (maxPages - acc.urls.length)).urls = [] := by
        cases fuel with
        | zero => simp [collectGo]
        | succ fuel => simp [collectGo, hfail]
      simp only [List.nil_append, collectLoop, hfull, if_false]
      exact collectLoop_urls_congr env fuel maxPages l₂ _ acc (by simp [hnested])
  | cons u rest ih =>
    intro l₂ acc
    by_cases hfull : maxPages ≤ acc.urls.length
    · simp [collectLoop, hfull]
    · simp only [List.cons_append, collectLoop, hfull, if_false]
      exact ih l₂ _

theorem collectLoop_errors_mono (env : String → FetchOutcome) (fuel maxPages : Nat)
    (l : List String) (acc : SitemapResult) (e : String) (he : e ∈ acc.errors) :
    e ∈ (collectLoop env fuel maxPages l acc).errors := by
  induction l generalizing acc with
  | nil => simpa [collectLoop] using he
  | cons u rest ih =>
    by_cases hfull : maxPages ≤ acc.urls.length
    · simpa [collectLoop, hfull] using he
    · simp only [collectLoop, hfull, if_false]
      exact ih _ (by simp [he])

/-- C7: a sitemap index with one child whose fetch fails still returns
the URLs discovered from the sibling children (the collected list equals
the one obtained with the failing child removed), and the failure is
recorded as a soft error — provided the nesting is within the depth
limit and the budget is not already exhausted when the failing child is
reached. -/
theorem collectAllUrls_failed_branch_keeps_siblings
    (env : String → FetchOutcome) (root failUrl msg : String)
    (l₁ l₂ : List String) (maxPages depth : Nat)
    (hdepth : depth + 1 < MAX_SITEMAP_DEPTH)
    (hroot : env root = .indexDoc (l₁ ++ failUrl :: l₂))
    (hfail : env failUrl = .failure msg)
    (hbudget :
      (collectLoop env (MAX_SITEMAP_DEPTH - (depth + 1)) maxPages l₁
        { urls := [], errors := [] }).urls.length < maxPages) :
    (collectAllUrls env root maxPages depth).urls =
      (collectLoop env (MAX_SITEMAP_DEPTH - (depth + 1)) maxPages (l₁ ++ l₂)
        { urls := [], errors := [] }).urls ∧
    fetchError failUrl msg ∈ (collectAllUrls env root maxPages depth).errors := by
  have hfuel : MAX_SITEMAP_DEPTH - depth = (MAX_SITEMAP_DEPTH - (depth + 1)) + 1 := by omega
  set fuel := MAX_SITEMAP_DEPTH - (depth + 1) with hfueldef
  have hunfold : collectAllUrls env root maxPages depth =
      collectLoop env fuel maxPages (l₁ ++ failUrl :: l₂) { urls := [], errors := [] } := by
    rw [collectAllUrls, hfuel]
    simp [collectGo, hroot]
  constructor
  · rw [hunfold]
    exact collectLoop_urls_skip_failure env fuel maxPages failUrl msg hfail l₁ l₂ _
  · rw [hunfold, collectLoop_append]
    set acc₁ := collectLoop env fuel maxPages l₁ { urls := [], errors := [] } with hacc₁
    have hnotfull : ¬ maxPages ≤ acc₁.urls.length := by omega
    have hfuelpos : ∃ f, fuel = f + 1 := ⟨MAX_SITEMAP_DEPTH - (depth + 2), by omega⟩
    obtain ⟨f, hf⟩ := hfuelpos
    have hnested : (collectGo env fuel failUrl (maxPages - acc₁.urls.length)).errors =
        [fetchError failUrl msg] := by
      rw [hf]; simp [collectGo, hfail]
    simp only [collectLoop, hnotfull, if_false]
    exact collectLoop_errors_mono env fuel maxPages l₂ _ _ (by simp [hnested])

/-- A concrete environment used to instantiate the C7 theorem: a root
index with a failing child followed by a healthy leaf child. -/
def envFailingBranch : String → FetchOutcome := fun url =>
  if url = "https://ex.com/sitemap.xml" then
    .indexDoc ["https://ex.com/broken.xml", "https://ex.com/good.xml"]
  else if url = "https://ex.com/broken.xml" then
    .failure "HTTP 500: Internal Server Error"
  else
    .leafDoc [{ loc := "https://ex.com/page", lastmod := none, priority := none }]

/-- Witness for the C7 theorem at a concrete input: the sibling leaf's
URL survives and the failing child appears as a soft error. -/
theorem collectAllUrls_failed_branch_keeps_siblings_witness :
    (0 + 1 < MAX_SITEMAP_DEPTH ∧
      envFailingBranch "https://ex.com/sitemap.xml" =
        .indexDoc ([] ++ "https://ex.com/broken.xml" :: ["https://ex.com/good.xml"]) ∧
      envFailingBranch "https://ex.com/broken.xml" =
        .failure "HTTP 500: Internal Server Error" ∧
      (collectLoop envFailingBranch (MAX_SITEMAP_DEPTH - (0 + 1)) 10 []
        { urls := [], errors := [] }).urls.length < 10) ∧
    ((collectAllUrls envFailingBranch "https://ex.com/sitemap.xml" 10 0).urls =
      (collectLoop envFailingBranch (MAX_SITEMAP_DEPTH - (0 + 1)) 10
        ([] ++ ["https://ex.com/good.xml"]) { urls := [], errors := [] }).urls ∧
    fetchError "https://ex.com/broken.xml" "HTTP 500: Internal Server Error" ∈
      (collectAllUrls envFailingBranch "https://ex.com/sitemap.xml" 10 0).errors) :=
  ⟨⟨by decide, by decide, by decide, by simp [collectLoop]⟩,
   collectAllUrls_failed_branch_keeps_siblings envFailingBranch
     "https://ex.com/sitemap.xml" "https://ex.com/broken.xml"
     "HTTP 500: Internal Server Error" [] ["https://ex.com/good.xml"] 10 0
     (by decide) (by decide) (by decide) (by simp [collectLoop])⟩

/-- Function `sortUrlsByPath` (src/unnamed/part_004, lines 257-263).  The
comparator runs `new URL(a.loc)` on both elements of every compared
pair; `new URL` is the WHATWG parser (an external builtin), modelled as
`parseURL : String → Option String` returning the `pathname` when the
text parses as an absolute URL.  A JS `Array.prototype.sort` never calls
the comparator on a list of fewer than two elements, and on two or more
elements every element takes part in at least one comparison, so the
call throws exactly when the list has at least two elements and some
`loc` fails to parse.  `localeCompare` ordering is modelled as string
order; no claim depends on the resulting order, only on totality. -/
def sortUrlsByPath (parseURL : String → Option String) (urls : List SitemapUrl) :
    Except String (List SitemapUrl) :=
  match urls with
  | [] => .ok []
  | [u] => .ok [u]
  | _ =>
    if urls.all (fun u => (parseURL u.loc).isSome) then
      .ok (urls.mergeSort
        (fun a b => decide (((parseURL a.loc).getD "") ≤ ((parseURL b.loc).getD ""))))
    else
      .error "Invalid URL"

/-- The outcome of the `POST /site` handler after `collectAllUrls` has
returned (src/src/routes/site.ts, lines 206-270): 400 for an empty URL
list, 500 when the rest of the `try` block throws (in particular when
`sortUrlsByPath` throws), otherwise a 202 acknowledgment carrying
`totalPages = sortedUrls.length` with background processing started on
the sorted list. -/
inductive SubmitOutcome where
  | emptySitemap (sitemapErrors : List String)
  | internalError
  | accepted (totalPages : Nat) (sorted : List SitemapUrl)
deriving DecidableEq, Repr

/-- The tail of the `POST /site` handler (src/src/routes/site.ts,
lines 209-260), from the empty-sitemap check through `sortUrlsByPath`
to the 202 acknowledgment; a throw inside the `try` block lands in the
catch at lines 262-270 (500 Internal Server Error). -/
def submitAfterCollect (parseURL : String → Option String)
    (sitemapResult : SitemapResult) : SubmitOutcome :=
  if sitemapResult.urls.length = 0 then .emptySitemap sitemapResult.errors
  else
    match sortUrlsByPath parseURL sitemapResult.urls with
    | .error _ => .internalError
    | .ok sorted => .accepted sorted.length sorted

/-- C10: `parseSitemapUrls` keeps any non-empty `<loc>` text without URL
validation, and on a list of at least two entries one of which has a
`loc` that does not parse as an absolute URL, `sortUrlsByPath` throws,
so the site-crawl submission fails as a whole (500) instead of producing
a sorted list. -/
theorem sortUrlsByPath_throws_on_unparseable_loc :
    parseSitemapUrls
        [{ locText := some "not a valid url", lastmodText := none, priorityText := none }] =
      [{ loc := "not a valid url", lastmod := none, priority := none }] ∧
    ∀ (parseURL : String → Option String) (result : SitemapResult) (e : SitemapUrl),
      e ∈ result.urls → parseURL e.loc = none → 2 ≤ result.urls.length →
      sortUrlsByPath parseURL result.urls = .error "Invalid URL" ∧
      submitAfterCollect parseURL result = .internalError := by
  refine ⟨by decide, ?_⟩
  intro parseURL result e hmem hbad hlen
  have hnotall : ¬ result.urls.all (fun u => (parseURL u.loc).isSome) = true := by
    intro hall
    have := List.all_eq_true.mp hall e hmem
    rw [hbad] at this
    simp at this
  have hsort : sortUrlsByPath parseURL result.urls = .error "Invalid URL" := by
    match hurls : result.urls with
    | [] => rw [hurls] at hlen; simp at hlen
    | [u] => rw [hurls] at hlen; simp at hlen
    | u :: v :: rest =>
      rw [hurls] at hnotall
      simp only [sortUrlsByPath]
      rw [if_neg hnotall]
  refine ⟨hsort, ?_⟩
  have hne : ¬ result.urls.length = 0 := by omega
  simp only [submitAfterCollect, hne, if_false, hsort]

/-- A WHATWG-style parse environment for the C10 witness: only the one
well-formed URL parses. -/
def parseURLOneGood : String → Option String := fun s =>
  if s = "https://ex.com/page" then some "/page" else none

/-- The unparseable entry of the C10 witness. -/
def badLocEntry : SitemapUrl :=
  { loc := "not a valid url", lastmod := none, priority := none }

/-- The two-entry collect result of the C10 witness. -/
def badLocResult : SitemapResult :=
  { urls := [badLocEntry,
             { loc := "https://ex.com/page", lastmod := none, priority := none }],
    errors := [] }

/-- Witness for the C10 theorem at a concrete input: a two-entry list in
which the first `loc` is the unparseable text kept by the parser. -/
theorem sortUrlsByPath_throws_on_unparseable_loc_witness :
    (badLocEntry ∈ badLocResult.urls ∧ parseURLOneGood badLocEntry.loc = none ∧
      2 ≤ badLocResult.urls.length) ∧
    (sortUrlsByPath parseURLOneGood badLocResult.urls = .error "Invalid URL" ∧
      submitAfterCollect parseURLOneGood badLocResult = .internalError) :=
  ⟨⟨by decide, by decide, by decide⟩,
   sortUrlsByPath_throws_on_unparseable_loc.2 parseURLOneGood badLocResult badLocEntry
     (by decide) (by decide) (by decide)⟩

end Sitemap

namespace RateLimit

/-- Computation `Math.ceil(x / 1000)` for an integer number of milliseconds `x`
(timestamps are `Date.now()` values, hence integers). -/
def ceilDiv1000 (x : Int) : Int :=
  Int.ediv (x + 999) 1000

/-- The outcome of one pass through the per-key part of
`rateLimitMiddleware` (src/unnamed/part_001): a 429 response carrying
`retryAfter` (line 61), or admission with the `X-RateLimit-Remaining`
header value (line 72). -/
inductive Decision where
  | rejected (retryAfter : Int)
  | allowed (remaining : Int)
deriving DecidableEq, Repr

/-- The per-key body of `rateLimitMiddleware` (src/unnamed/part_001,
lines 40-75) on one caller key's window: drop timestamps `ts` with
`now - ts >= windowMs` (line 49); if the kept count reaches
`maxRequests`, reject with
`retryAfter = max(1, ceil((oldestTs + windowMs - now) / 1000))` where
`oldestTs` is the first kept timestamp (lines 52-63) and the current
timestamp is NOT recorded; otherwise push `now` and admit with
`remaining = maxRequests - timestamps.length` (lines 67-75).  Returns
the decision together with the window's new timestamp list. -/
def rateLimitCheck (timestamps : List Int) (now : Int) (maxRequests : Nat)
    (windowMs : Int) : Decision × List Int :=
  let kept := timestamps.filter (fun ts => decide (now - ts < windowMs))
  if maxRequests ≤ kept.length then
    let oldestTs := kept.head?.getD now
    let retryAfter := ceilDiv1000 (oldestTs + windowMs - now)
    (.rejected (max 1 retryAfter), kept)
  else
    (.allowed ((maxRequests : Int) - ((kept.length : Int) + 1)), kept ++ [now])

/-- C4: with the `2/second` spec (`parseRateLimit` yields
`requests = 2, windowMs = 1000`), three checks inside the same one-second
window give allow, allow, reject — the rejection carrying
`retryAfter = max(1, ceil((t1 + 1000 - t3)/1000)) ≥ 1`, computed from the
time until the oldest retained timestamp leaves the window — and a
fourth check after the window has elapsed is allowed again because the
old timestamps are discarded before counting. -/
theorem rateLimit_two_per_second_allow_allow_reject_allow
    (t1 t2 t3 t4 : Int) (h12 : t1 ≤ t2) (h23 : t2 ≤ t3)
    (hwin : t3 - t1 < 1000) (helapsed : 1000 ≤ t4 - t2) :
    (rateLimitCheck [] t1 2 1000).1 = .allowed 1 ∧
    (rateLimitCheck (rateLimitCheck [] t1 2 1000).2 t2 2 1000).1 = .allowed 0 ∧
    (rateLimitCheck (rateLimitCheck (rateLimitCheck [] t1 2 1000).2 t2 2 1000).2
        t3 2 1000).1 =
      .rejected (max 1 (ceilDiv1000 (t1 + 1000 - t3))) ∧
    1 ≤ max 1 (ceilDiv1000 (t1 + 1000 - t3)) ∧
    (rateLimitCheck
        (rateLimitCheck (rateLimitCheck (rateLimitCheck [] t1 2 1000).2 t2 2 1000).2
          t3 2 1000).2 t4 2 1000).1 = .allowed 1 := by
  have hA : t2 - t1 < 1000 := by omega
  have hB : t3 - t1 < 1000 := hwin
  have hC : t3 - t2 < 1000 := by omega
  have hD : ¬ t4 - t1 < 1000 := by omega
  have hE : ¬ t4 - t2 < 1000 := by omega
  have step1 : rateLimitCheck [] t1 2 1000 = (.allowed 1, [t1]) := by
    simp [rateLimitCheck]
  have step2 : rateLimitCheck [t1] t2 2 1000 = (.allowed 0, [t1, t2]) := by
    simp [rateLimitCheck, hA]
  have step3 : rateLimitCheck [t1, t2] t3 2 1000 =
      (.rejected (max 1 (ceilDiv1000 (t1 + 1000 - t3))), [t1, t2]) := by
    simp [rateLimitCheck, hB, hC]
  have step4 : rateLimitCheck [t1, t2] t4 2 1000 = (.allowed 1, [t4]) := by
    simp [rateLimitCheck, hD, hE]
  simp only [step1, step2, step3, step4]
  exact ⟨trivial, trivial, trivial, le_max_left 1 _, trivial⟩

/-- Witness for the C4 theorem at concrete instants 0, 1, 2, 1001 ms. -/
theorem rateLimit_two_per_second_allow_allow_reject_allow_witness :
    ((0 : Int) ≤ 1 ∧ (1 : Int) ≤ 2 ∧ (2 : Int) - 0 < 1000 ∧ (1000 : Int) ≤ 1001 - 1) ∧
    ((rateLimitCheck [] 0 2 1000).1 = .allowed 1 ∧
     (rateLimitCheck (rateLimitCheck [] 0 2 1000).2 1 2 1000).1 = .allowed 0 ∧
     (rateLimitCheck (rateLimitCheck (rateLimitCheck [] 0 2 1000).2 1 2 1000).2
         2 2 1000).1 =
       .rejected (max 1 (ceilDiv1000 (0 + 1000 - 2))) ∧
     1 ≤ max 1 (ceilDiv1000 (0 + 1000 - 2)) ∧
     (rateLimitCheck
         (rateLimitCheck (rateLimitCheck (rateLimitCheck [] 0 2 1000).2 1 2 1000).2
           2 2 1000).2 1001 2 1000).1 = .allowed 1) :=
  ⟨⟨by decide, by decide, by decide, by decide⟩,
   rateLimit_two_per_second_allow_allow_reject_allow 0 1 2 1001
     (by decide) (by decide) (by decide) (by decide)⟩

end RateLimit

namespace Cleanup

/-- Type `Screenshot['status']` of `src/types/index.ts`. -/
inductive ScreenshotStatus where
  | pending
  | completed
  | failed
  | expired
deriving DecidableEq, Repr

/-- The fields of a `screenshots` row that the sweeper touches
(`Screenshot` of `src/types/index.ts`; `expires_at` as a timestamp
integer). -/
structure Screenshot where
  id : String
  bucket : String
  storageKey : String
  expiresAt : Int
  status : ScreenshotStatus
deriving DecidableEq, Repr

/-- Function `getExpiredScreenshots` (src/src/services/database.ts, lines
154-163): rows with `status = 'completed' AND expires_at < NOW()`,
`LIMIT 100`. -/
def getExpiredScreenshots (db : List Screenshot) (now : Int) : List Screenshot :=
  (db.filter fun s => decide (s.status = .completed) && decide (s.expiresAt < now)).take 100

/-- Function `updateScreenshotStatus` (src/src/services/database.ts, lines
165-168): `UPDATE screenshots SET status = $1 WHERE id = $2`. -/
def updateScreenshotStatus (db : List Screenshot) (i : String)
    (status : ScreenshotStatus) : List Screenshot :=
  db.map fun s => if s.id = i then { s with status := status } else s

/-- Function `deleteScreenshotRecord` (src/src/services/database.ts, lines
170-173): `DELETE FROM screenshots WHERE id = $1`. -/
def deleteScreenshotRecord (db : List Screenshot) (i : String) : List Screenshot :=
  db.filter fun s => !(decide (s.id = i))

/-- Which external calls of one `runCleanup` iteration succeed:
`deleteScreenshot` against the blob store (by bucket and key), and the
two metadata-store calls (by id). -/
structure CleanupEnv where
  blobDeleteOk : String → String → Bool
  recordDeleteOk : String → Bool
  statusUpdateOk : String → Bool

/-- The sweeper's running state: the metadata store plus the
`deletedCount` / `errorCount` tallies of `runCleanup`. -/
structure CleanupState where
  db : List Screenshot
  deletedCount : Nat
  errorCount : Nat
deriving DecidableEq, Repr

/-- One iteration of the `for (const screenshot of expiredScreenshots)`
loop of `runCleanup` (src/unnamed/part_003, lines 38-79): try blob
delete then record delete, counting a success; on either failure, land
in the catch block, count an error, and try to mark the row `expired`
(itself allowed to fail, leaving the row untouched). -/
def cleanupOne (env : CleanupEnv) (st : CleanupState) (s : Screenshot) : CleanupState :=
  if env.blobDeleteOk s.bucket s.storageKey && env.recordDeleteOk s.id then
    { db := deleteScreenshotRecord st.db s.id,
      deletedCount := st.deletedCount + 1,
      errorCount := st.errorCount }
  else
    { db := if env.statusUpdateOk s.id then updateScreenshotStatus st.db s.id .expired
            else st.db,
      deletedCount := st.deletedCount,
      errorCount := st.errorCount + 1 }

/-- The screenshot-sweeping part of `runCleanup` (src/unnamed/part_003,
lines 27-79): fetch the expired batch once, then run the loop over that
snapshot.  The site-capture loop and the rate-limit log pruning that
follow (lines 81-96) touch other tables and are outside the claims. -/
def runCleanup (env : CleanupEnv) (db : List Screenshot) (now : Int) : CleanupState :=
  (getExpiredScreenshots db now).foldl (cleanupOne env)
    { db := db, deletedCount := 0, errorCount := 0 }

/-- The rows of a store that carry a given id. -/
def recordsWithId (db : List Screenshot) (i : String) : List Screenshot :=
  db.filter fun s => decide (s.id = i)

theorem recordsWithId_delete_other (l : List Screenshot) (i x : String) (hne : i ≠ x) :
    recordsWithId (deleteScreenshotRecord l x) i = recordsWithId l i := by
  induction l with
  | nil => rfl
  | cons a rest ih =>
    unfold recordsWithId deleteScreenshotRecord at ih ⊢
    rw [List.filter_cons]
    by_cases hax : a.id = x
    · have hai : ¬ a.id = i := fun h => hne (by rw [← h, hax])
      rw [if_neg (by simp [hax]), List.filter_cons, if_neg (by simp [hai])]
      exact ih
    · rw [if_pos (by simp [hax]), List.filter_cons, List.filter_cons]
      by_cases hai : a.id = i
      · rw [if_pos (by simp [hai]), if_pos (by simp [hai]), ih]
      · rw [if_neg (by simp [hai]), if_neg (by simp [hai])]
        exact ih

theorem recordsWithId_update_other (l : List Screenshot) (i x : String)
    (status : ScreenshotStatus) (hne : i ≠ x) :
    recordsWithId (updateScreenshotStatus l x status) i = recordsWithId l i := by
  induction l with
  | nil => rfl
  | cons a rest ih =>
    unfold recordsWithId updateScreenshotStatus at ih ⊢
    rw [List.map_cons, List.filter_cons, List.filter_cons]
    by_cases hax : a.id = x
    · have hai : ¬ a.id = i := fun h => hne (by rw [← h, hax])
      rw [if_pos hax, if_neg (by simp [hai]), if_neg (by simp [hai])]
      exact ih
    · rw [if_neg hax]
      by_cases hai : a.id = i
      · rw [if_pos (by simp [hai]), if_pos (by simp [hai]), ih]
      · rw [if_neg (by simp [hai]), if_neg (by simp [hai])]
        exact ih

theorem recordsWithId_update_self (l : List Screenshot) (i : String)
    (status : ScreenshotStatus) :
    recordsWithId (updateScreenshotStatus l i status) i =
      (recordsWithId l i).map (fun s => { s with status := status }) := by
  induction l with
  | nil => rfl
  | cons a rest ih =>
    unfold recordsWithId updateScreenshotStatus at ih ⊢
    rw [List.map_cons, List.filter_cons, List.filter_cons]
    by_cases hai : a.id = i
    · rw [if_pos hai, if_pos (by simp [hai]), if_pos (by simp [hai]), List.map_cons, ih]
    · rw [if_neg hai, if_neg (by simp [hai]), if_neg (by simp [hai])]
      exact ih

theorem recordsWithId_delete_self (l : List Screenshot) (i : String) :
    recordsWithId (deleteScreenshotRecord l i) i = [] := by
  induction l with
  | nil => rfl
  | cons a rest ih =>
    unfold recordsWithId deleteScreenshotRecord at ih ⊢
    rw [List.filter_cons]
    by_cases hai : a.id = i
    · rw [if_neg (by simp [hai])]
      exact ih
    · rw [if_pos (by simp [hai]), List.filter_cons, if_neg (by simp [hai])]
      exact ih

theorem cleanupOne_records_other (env : CleanupEnv) (st : CleanupState)
    (x : Screenshot) (i : String) (hne : i ≠ x.id) :
    recordsWithId (cleanupOne env st x).db i = recordsWithId st.db i := by
  by_cases hok : env.blobDeleteOk x.bucket x.storageKey && env.recordDeleteOk x.id
  · simp only [cleanupOne, hok, if_true]
    exact recordsWithId_delete_other st.db i x.id hne
  · simp only [cleanupOne, hok, if_false]
    by_cases hupd : env.statusUpdateOk x.id
    · simp only [hupd, if_true]
      exact recordsWithId_update_other st.db i x.id .expired hne
    · simp [hupd]

theorem foldl_cleanup_records_other (env : CleanupEnv) (i : String) :
    ∀ (l : List Screenshot) (st : CleanupState),
      (∀ x ∈ l, i ≠ x.id) →
      recordsWithId (l.foldl (cleanupOne env) st).db i = recordsWithId st.db i := by
  intro l
  induction l with
  | nil => intro st _; rfl
  | cons x rest ih =>
    intro st hl
    rw [List.foldl_cons, ih _ (fun y hy => hl y (List.mem_cons_of_mem x hy))]
    exact cleanupOne_records_other env st x i (hl x (List.mem_cons_self x rest))

theorem cleanupOne_records_empty (env : CleanupEnv) (st : CleanupState)
    (x : Screenshot) (i : String) (h : recordsWithId st.db i = []) :
    recordsWithId (cleanupOne env st x).db i = [] := by
  by_cases hne : i = x.id
  · by_cases hok : (env.blobDeleteOk x.bucket x.storageKey && env.recordDeleteOk x.id) = true
    · unfold cleanupOne
      rw [if_pos hok]
      rw [hne]
      exact recordsWithId_delete_self st.db x.id
    · unfold cleanupOne
      rw [if_neg hok]
      dsimp only
      by_cases hupd : env.statusUpdateOk x.id = true
      · rw [if_pos hupd, hne, recordsWithId_update_self, ← hne, h, List.map_nil]
      · rw [if_neg hupd]
        exact h
  · rw [cleanupOne_records_other env st x i hne]
    exact h

theorem foldl_cleanup_records_empty (env : CleanupEnv) (i : String) :
    ∀ (l : List Screenshot) (st : CleanupState),
      recordsWithId st.db i = [] →
      recordsWithId (l.foldl (cleanupOne env) st).db i = [] := by
  intro l
  induction l with
  | nil => intro st h; exact h
  | cons x rest ih =>
    intro st h
    rw [List.foldl_cons]
    exact ih _ (cleanupOne_records_empty env st x i h)

/-- The batch selected by one sweep is a sublist of the store. -/
theorem getExpiredScreenshots_sublist (db : List Screenshot) (now : Int) :
    (getExpiredScreenshots db now).Sublist db :=
  (List.take_sublist _ _).trans (List.filter_sublist db)

theorem batch_ids_nodup (db : List Screenshot) (now : Int)
    (hnodup : (db.map Screenshot.id).Nodup) :
    ((getExpiredScreenshots db now).map Screenshot.id).Nodup :=
  hnodup.sublist ((getExpiredScreenshots_sublist db now).map Screenshot.id)

/-- After a sweep in which the blob deletion for `s` failed and the
fallback status update succeeded, the rows carrying `s.id` are exactly
the original ones with status forced to `expired`. -/
theorem runCleanup_records_of_failed_blob (env : CleanupEnv) (db : List Screenshot)
    (now : Int) (s : Screenshot)
    (hnodup : (db.map Screenshot.id).Nodup)
    (hmem : s ∈ getExpiredScreenshots db now)
    (hblob : env.blobDeleteOk s.bucket s.storageKey = false)
    (hupd : env.statusUpdateOk s.id = true) :
    recordsWithId (runCleanup env db now).db s.id =
      (recordsWithId db s.id).map (fun r => { r with status := .expired }) := by
  obtain ⟨l₁, l₂, hsplit⟩ := List.append_of_mem hmem
  have hids := batch_ids_nodup db now hnodup
  rw [hsplit] at hids
  rw [List.map_append, List.map_cons] at hids
  have hnotl₁ : ∀ x ∈ l₁, s.id ≠ x.id := by
    intro x hx heq
    have : s.id ∈ l₁.map Screenshot.id := heq ▸ List.mem_map_of_mem Screenshot.id hx
    exact (List.disjoint_of_nodup_append hids) this (List.mem_cons_self _ _)
  have hnotl₂ : ∀ x ∈ l₂, s.id ≠ x.id := by
    intro x hx heq
    have hmem₂ : s.id ∈ l₂.map Screenshot.id := heq ▸ List.mem_map_of_mem Screenshot.id hx
    have := (List.nodup_append.mp hids).2.1
    rw [List.nodup_cons] at this
    exact this.1 hmem₂
  rw [runCleanup, hsplit, List.foldl_append, List.foldl_cons]
  rw [foldl_cleanup_records_other env s.id l₂ _ hnotl₂]
  have hfail : ¬ (env.blobDeleteOk s.bucket s.storageKey && env.recordDeleteOk s.id) = true := by
    simp [hblob]
  unfold cleanupOne
  rw [if_neg hfail, if_pos hupd]
  rw [recordsWithId_update_self]
  congr 1
  exact foldl_cleanup_records_other env s.id l₁ _ hnotl₁

/-- C8: when the blob-store deletion for one selected artifact fails
(and the fallback status write succeeds), the sweep marks that
artifact's row `expired` rather than leaving it `completed`, and it
still processes the remaining artifacts of the batch: every other
batch member whose blob and record deletions succeed is gone from the
store afterwards. -/
theorem runCleanup_failed_blob_marks_expired_and_continues
    (env : CleanupEnv) (db : List Screenshot) (now : Int) (s : Screenshot)
    (hnodup : (db.map Screenshot.id).Nodup)
    (hmem : s ∈ getExpiredScreenshots db now)
    (hblob : env.blobDeleteOk s.bucket s.storageKey = false)
    (hupd : env.statusUpdateOk s.id = true) :
    ({ s with status := .expired } ∈ (runCleanup env db now).db ∧
      ∀ r ∈ (runCleanup env db now).db, r.id = s.id → r.status = .expired) ∧
    (∀ t ∈ getExpiredScreenshots db now, t.id ≠ s.id →
      env.blobDeleteOk t.bucket t.storageKey = true →
      env.recordDeleteOk t.id = true →
      ∀ r ∈ (runCleanup env db now).db, r.id ≠ t.id) := by
  have hrecords := runCleanup_records_of_failed_blob env db now s hnodup hmem hblob hupd
  constructor
  · constructor
    · have hsdb : s ∈ db := (getExpiredScreenshots_sublist db now).mem hmem
      have hs : s ∈ recordsWithId db s.id := by
        simp [recordsWithId, List.mem_filter, hsdb]
      have : { s with status := ScreenshotStatus.expired } ∈
          recordsWithId (runCleanup env db now).db s.id := by
        rw [hrecords]
        exact List.mem_map_of_mem _ hs
      exact (List.filter_sublist _).mem this
    · intro r hr hid
      have hrmem : r ∈ recordsWithId (runCleanup env db now).db s.id := by
        simp [recordsWithId, List.mem_filter, hr, hid]
      rw [hrecords] at hrmem
      obtain ⟨r₀, _, hval⟩ := List.mem_map.mp hrmem
      rw [← hval]
  · intro t htmem htne htblob htrec r hr hrid
    obtain ⟨m₁, m₂, hsplit⟩ := List.append_of_mem htmem
    have hids := batch_ids_nodup db now hnodup
    rw [hsplit] at hids
    rw [List.map_append, List.map_cons] at hids
    have hnotm₂ : ∀ x ∈ m₂, t.id ≠ x.id := by
      intro x hx heq
      have hmem₂ : t.id ∈ m₂.map Screenshot.id := heq ▸ List.mem_map_of_mem Screenshot.id hx
      have := (List.nodup_append.mp hids).2.1
      rw [List.nodup_cons] at this
      exact this.1 hmem₂
    have hok : (env.blobDeleteOk t.bucket t.storageKey && env.recordDeleteOk t.id) = true := by
      simp [htblob, htrec]
    have hempty : recordsWithId (runCleanup env db now).db t.id = [] := by
      rw [runCleanup, hsplit, List.foldl_append, List.foldl_cons]
      apply foldl_cleanup_records_empty env t.id m₂
      simp only [cleanupOne, hok, if_true]
      exact recordsWithId_delete_self _ t.id
    have : r ∈ recordsWithId (runCleanup env db now).db t.id := by
      simp [recordsWithId, List.mem_filter, hr, hrid]
    rw [hempty] at this
    exact absurd this (List.not_mem_nil r)

/-- A completed, long-expired artifact whose blob deletion will fail. -/
def sBlobFail : Screenshot :=
  { id := "a1", bucket := "shots", storageKey := "k1", expiresAt := 0, status := .completed }

/-- A completed, long-expired artifact whose deletions succeed. -/
def sHealthy : Screenshot :=
  { id := "a2", bucket := "shots", storageKey := "k2", expiresAt := 0, status := .completed }

/-- A sweep environment in which only the blob delete of key `k1`
fails. -/
def envOneBlobFail : CleanupEnv :=
  { blobDeleteOk := fun _ key => if key = "k1" then false else true,
    recordDeleteOk := fun _ => true,
    statusUpdateOk := fun _ => true }

/-- Witness for the C8 theorem at a concrete two-artifact batch: the
artifact with the failing blob delete ends up `expired`, the other one
is deleted. -/
theorem runCleanup_failed_blob_marks_expired_and_continues_witness :
    (([sBlobFail, sHealthy].map Screenshot.id).Nodup ∧
      sBlobFail ∈ getExpiredScreenshots [sBlobFail, sHealthy] 10 ∧
      envOneBlobFail.blobDeleteOk sBlobFail.bucket sBlobFail.storageKey = false ∧
      envOneBlobFail.statusUpdateOk sBlobFail.id = true) ∧
    (({ sBlobFail with status := .expired } ∈
        (runCleanup envOneBlobFail [sBlobFail, sHealthy] 10).db ∧
      ∀ r ∈ (runCleanup envOneBlobFail [sBlobFail, sHealthy] 10).db,
        r.id = sBlobFail.id → r.status = .expired) ∧
    (∀ t ∈ getExpiredScreenshots [sBlobFail, sHealthy] 10, t.id ≠ sBlobFail.id →
      envOneBlobFail.blobDeleteOk t.bucket t.storageKey = true →
      envOneBlobFail.recordDeleteOk t.id = true →
      ∀ r ∈ (runCleanup envOneBlobFail [sBlobFail, sHealthy] 10).db, r.id ≠ t.id)) :=
  ⟨⟨by decide, by decide, by decide, by decide⟩,
   runCleanup_failed_blob_marks_expired_and_continues envOneBlobFail
     [sBlobFail, sHealthy] 10 sBlobFail (by decide) (by decide) (by decide) (by decide)⟩

/-- C9 counterexample: a sweep whose blob delete fails marks the
artifact `expired`, and a later sweep over the resulting store selects
nothing — `getExpiredScreenshots` filters on `status = 'completed'`,
so the marked row is never picked up again. -/
theorem sweep_never_reselects_expired_counterexample :
    sBlobFail ∈ getExpiredScreenshots [sBlobFail] 10 ∧
    envOneBlobFail.blobDeleteOk sBlobFail.bucket sBlobFail.storageKey = false ∧
    (runCleanup envOneBlobFail [sBlobFail] 10).db =
      [{ sBlobFail with status := .expired }] ∧
    getExpiredScreenshots (runCleanup envOneBlobFail [sBlobFail] 10).db 20 = [] := by
  decide

/-- C9 amended: an artifact that a sweep marks `expired` because its
blob deletion failed is never selected by any later
`getExpiredScreenshots` query (which filters on `status = 'completed'`),
so no later sweep retries the deletion. -/
theorem expired_marked_artifact_never_reselected
    (env : CleanupEnv) (db : List Screenshot) (now : Int) (s : Screenshot)
    (hnodup : (db.map Screenshot.id).Nodup)
    (hmem : s ∈ getExpiredScreenshots db now)
    (hblob : env.blobDeleteOk s.bucket s.storageKey = false)
    (hupd : env.statusUpdateOk s.id = true) :
    ∀ (later : Int), ∀ u ∈ getExpiredScreenshots (runCleanup env db now).db later,
      u.id ≠ s.id := by
  intro later u hu heq
  have hudb : u ∈ (runCleanup env db now).db := (getExpiredScreenshots_sublist _ _).mem hu
  have hurec : u ∈ recordsWithId (runCleanup env db now).db s.id := by
    simp [recordsWithId, List.mem_filter, hudb, heq]
  rw [runCleanup_records_of_failed_blob env db now s hnodup hmem hblob hupd] at hurec
  obtain ⟨r₀, _, hval⟩ := List.mem_map.mp hurec
  have hstatus : u.status = .expired := by rw [← hval]
  have hfiltered : u ∈ (runCleanup env db now).db.filter
      (fun r => decide (r.status = .completed) && decide (r.expiresAt < later)) :=
    (List.take_sublist _ _).mem hu
  have hsel := (List.mem_filter.mp hfiltered).2
  rw [hstatus] at hsel
  simp at hsel

/-- Witness for the amended C9 theorem at the concrete one-artifact
store of the counterexample. -/
theorem expired_marked_artifact_never_reselected_witness :
    ((([sBlobFail].map Screenshot.id).Nodup ∧
      sBlobFail ∈ getExpiredScreenshots [sBlobFail] 10 ∧
      envOneBlobFail.blobDeleteOk sBlobFail.bucket sBlobFail.storageKey = false ∧
      envOneBlobFail.statusUpdateOk sBlobFail.id = true)) ∧
    (∀ (later : Int), ∀ u ∈ getExpiredScreenshots
        (runCleanup envOneBlobFail [sBlobFail] 10).db later,
      u.id ≠ sBlobFail.id) :=
  ⟨⟨by decide, by decide, by decide, by decide⟩,
   expired_marked_artifact_never_reselected envOneBlobFail [sBlobFail] 10 sBlobFail
     (by decide) (by decide) (by decide) (by decide)⟩

end Cleanup

namespace Site

/-- The control point of one `worker()` closure of `processSiteCapture`
(src/src/routes/site.ts, lines 122-137): about to test the shared queue
(`idle`), awaiting `processUrl(entry)` for a dequeued entry
(`processing`), awaiting its issued `updateSiteCaptureProgress` UPDATE
carrying the synchronously evaluated snapshot of the counters
(`writing`), or returned because the queue was empty (`done`). -/
inductive WorkerState where
  | idle
  | processing (entry : Sitemap.SitemapUrl)
  | writing (snapshot : Nat × Nat)
  | done
deriving DecidableEq, Repr

/-- The shared state of `processSiteCapture` (src/src/routes/site.ts,
lines 66-154): the queue (line 121), the worker group (lines 140-142),
the `capturedCount` / `failedCount` closure counters (lines 72-73), the
`captured_pages` / `failed_pages` pair of the job's database row as
last applied by an `updateSiteCaptureProgress` UPDATE
(src/src/services/database.ts, lines 337-348), and — as a ghost
component for the accounting proof — the entries counted so far. -/
structure OrchState where
  queue : List Sitemap.SitemapUrl
  workers : List WorkerState
  capturedCount : Nat
  failedCount : Nat
  progress : Nat × Nat
  processed : List Sitemap.SitemapUrl
deriving DecidableEq, Repr

/-- One scheduler step of the worker group, each step being the
synchronous slice between two `await` points of `worker()`
(src/src/routes/site.ts, lines 122-137).  `oracle` decides whether
`processUrl` succeeds for an entry (capture, upload and insert all
succeed) or fails (the catch at lines 113-117).

* `dequeue`: an idle worker finds the queue non-empty and `shift`s its
  head synchronously (lines 123-125), then suspends in
  `processUrl`.
* `finish`: an idle worker finds the queue empty and returns
  (line 123).
* `complete`: a worker's `processUrl` settles; the counter increment,
  the evaluation of the arguments of `updateSiteCaptureProgress` and the
  issuing of the UPDATE are one synchronous slice (lines 127-135), so
  the step bumps one counter and records the post-increment pair as the
  worker's in-flight write — the database row is NOT touched yet.
* `persist`: a worker's in-flight UPDATE
  (`SET captured_pages = $2, failed_pages = $3`, an absolute-value
  write) applies to the job row and the worker resumes.  Application
  and resumption are merged into one step: nothing in
  `processSiteCapture` reads the row between them, so scheduling the
  merged steps in any order realises every application order of the
  concurrently in-flight UPDATEs issued on separate pooled
  connections — in particular orders in which a staler snapshot
  applies last. -/
inductive Step (oracle : Sitemap.SitemapUrl → Bool) : OrchState → OrchState → Prop where
  | dequeue (s : OrchState) (pre post : List WorkerState)
      (entry : Sitemap.SitemapUrl) (rest : List Sitemap.SitemapUrl)
      (hw : s.workers = pre ++ .idle :: post)
      (hq : s.queue = entry :: rest) :
      Step oracle s { s with queue := rest, workers := pre ++ .processing entry :: post }
  | finish (s : OrchState) (pre post : List WorkerState)
      (hw : s.workers = pre ++ .idle :: post)
      (hq : s.queue = []) :
      Step oracle s { s with workers := pre ++ .done :: post }
  | complete (s : OrchState) (pre post : List WorkerState)
      (entry : Sitemap.SitemapUrl)
      (hw : s.workers = pre ++ .processing entry :: post) :
      Step oracle s
        { s with
          workers := pre ++
            .writing (if oracle entry then s.capturedCount + 1 else s.capturedCount,
                      if oracle entry then s.failedCount else s.failedCount + 1) :: post,
          capturedCount := if oracle entry then s.capturedCount + 1 else s.capturedCount,
          failedCount := if oracle entry then s.failedCount else s.failedCount + 1,
          processed := s.processed ++ [entry] }
  | persist (s : OrchState) (pre post : List WorkerState) (snapshot : Nat × Nat)
      (hw : s.workers = pre ++ .writing snapshot :: post) :
      Step oracle s
        { s with
          workers := pre ++ .idle :: post,
          progress := snapshot }

/-- Any interleaving of the worker group's slices. -/
def Reachable (oracle : Sitemap.SitemapUrl → Bool) : OrchState → OrchState → Prop :=
  Relation.ReflTransGen (Step oracle)

/-- The state right after `processSiteCapture` builds the queue and
starts `SITE_CAPTURE_CONCURRENCY`-many workers (here generalised to any
`n`) — src/src/routes/site.ts, lines 121 and 140-142. -/
def initState (urls : List Sitemap.SitemapUrl) (n : Nat) : OrchState :=
  { queue := urls,
    workers := List.replicate n .idle,
    capturedCount := 0,
    failedCount := 0,
    progress := (0, 0),
    processed := [] }

/-- The entries currently inside some worker's `processUrl` call. -/
def inFlight (ws : List WorkerState) : List Sitemap.SitemapUrl :=
  ws.filterMap fun w =>
    match w with
    | .processing e => some e
    | _ => none

/-- Predicate for `Promise.all(workers)` having settled: every worker returned. -/
def AllDone (s : OrchState) : Prop :=
  ∀ w ∈ s.workers, w = .done

instance (s : OrchState) : Decidable (AllDone s) := by
  unfold AllDone; infer_instance

/-- Expression `const finalStatus = capturedCount > 0 ? 'completed' : 'failed'`
(src/src/routes/site.ts, line 147), the argument of
`completeSiteCapture`. -/
inductive SiteStatus where
  | completed
  | failed
deriving DecidableEq, Repr

/-- The status written by `completeSiteCapture` after all workers
drain the queue (src/src/routes/site.ts, lines 147-148). -/
def finalStatus (s : OrchState) : SiteStatus :=
  if 0 < s.capturedCount then .completed else .failed

/-- The accounting invariant of the worker group: the in-memory
counters match the ghost list of counted entries, and counted +
in-flight + queued entries are exactly the submitted URLs.  (No clause
relates `progress` to the counters: the row carries whichever snapshot
applied last, which need not be the freshest one.) -/
def Inv (urls : List Sitemap.SitemapUrl) (s : OrchState) : Prop :=
  s.capturedCount + s.failedCount = s.processed.length ∧
  ((s.processed : Multiset Sitemap.SitemapUrl) + (inFlight s.workers : Multiset _) +
      (s.queue : Multiset _)) = (urls : Multiset _)

theorem inFlight_replicate_idle (n : Nat) :
    inFlight (List.replicate n .idle) = [] := by
  induction n with
  | zero => rfl
  | succ n ih => simpa [inFlight, List.replicate_succ, List.filterMap_cons] using ih

theorem inFlight_append (l₁ l₂ : List WorkerState) :
    inFlight (l₁ ++ l₂) = inFlight l₁ ++ inFlight l₂ :=
  List.filterMap_append l₁ l₂ _

theorem inFlight_idle_cons (post : List WorkerState) :
    inFlight (.idle :: post) = inFlight post := by
  simp [inFlight, List.filterMap_cons]

theorem inFlight_done_cons (post : List WorkerState) :
    inFlight (.done :: post) = inFlight post := by
  simp [inFlight, List.filterMap_cons]

theorem inFlight_processing_cons (e : Sitemap.SitemapUrl) (post : List WorkerState) :
    inFlight (.processing e :: post) = e :: inFlight post := by
  simp [inFlight, List.filterMap_cons]

theorem inFlight_writing_cons (p : Nat × Nat) (post : List WorkerState) :
    inFlight (.writing p :: post) = inFlight post := by
  simp [inFlight, List.filterMap_cons]

theorem inv_init (urls : List Sitemap.SitemapUrl) (n : Nat) :
    Inv urls (initState urls n) := by
  refine ⟨rfl, ?_⟩
  simp [initState, inFlight_replicate_idle]

theorem inv_step (oracle : Sitemap.SitemapUrl → Bool)
    (urls : List Sitemap.SitemapUrl) (s t : OrchState)
    (hstep : Step oracle s t) (hinv : Inv urls s) : Inv urls t := by
  obtain ⟨hcount, hacct⟩ := hinv
  cases hstep with
  | dequeue pre post entry rest hw hq =>
    refine ⟨hcount, ?_⟩
    rw [← hacct, hw, hq]
    simp only [inFlight_append, inFlight_idle_cons, inFlight_processing_cons]
    simp only [← Multiset.coe_add, ← Multiset.cons_coe, Multiset.coe_nil]
    simp only [Multiset.add_cons, Multiset.cons_add]
  | finish pre post hw hq =>
    refine ⟨hcount, ?_⟩
    rw [← hacct, hw]
    simp only [inFlight_append, inFlight_idle_cons, inFlight_done_cons]
  | complete pre post entry hw =>
    refine ⟨?_, ?_⟩
    · show (if oracle entry then s.capturedCount + 1 else s.capturedCount) +
        (if oracle entry then s.failedCount else s.failedCount + 1) =
        (s.processed ++ [entry]).length
      rw [List.length_append]
      by_cases ho : oracle entry = true
      · rw [if_pos ho, if_pos ho]
        simp only [List.length_cons, List.length_nil]
        omega
      · rw [if_neg ho, if_neg ho]
        simp only [List.length_cons, List.length_nil]
        omega
    · rw [← hacct, hw]
      simp only [inFlight_append, inFlight_writing_cons, inFlight_processing_cons]
      simp only [← Multiset.coe_add, ← Multiset.cons_coe, Multiset.coe_nil]
      simp only [Multiset.add_cons, Multiset.cons_add]
      abel
  | persist pre post snapshot hw =>
    refine ⟨hcount, ?_⟩
    rw [← hacct, hw]
    simp only [inFlight_append, inFlight_idle_cons, inFlight_writing_cons]

theorem inv_reachable (oracle : Sitemap.SitemapUrl → Bool)
    (urls : List Sitemap.SitemapUrl) (n : Nat) (st : OrchState)
    (hreach : Reachable oracle (initState urls n) st) : Inv urls st := by
  induction hreach with
  | refl => exact inv_init urls n
  | tail hsteps hstep ih => exact inv_step oracle urls _ _ hstep ih

theorem inFlight_eq_nil (ws : List WorkerState) (h : ∀ w ∈ ws, w = .done) :
    inFlight ws = [] := by
  induction ws with
  | nil => rfl
  | cons a rest ih =>
    rw [h a (List.mem_cons_self a rest), inFlight_done_cons]
    exact ih fun w hw => h w (List.mem_cons_of_mem a hw)

/-- With at least one worker, a fully drained state has an empty queue:
the last worker to return observed the queue empty, and the queue never
grows. -/
theorem queue_empty_of_allDone (oracle : Sitemap.SitemapUrl → Bool)
    (urls : List Sitemap.SitemapUrl) (n : Nat) (st : OrchState) (hn : 1 ≤ n)
    (hreach : Reachable oracle (initState urls n) st) (hdone : AllDone st) :
    st.queue = [] := by
  rcases Relation.ReflTransGen.cases_tail hreach with heq | ⟨c, _, hstep⟩
  · exfalso
    have hmem : WorkerState.idle ∈ st.workers := by
      rw [heq]
      exact List.mem_replicate.mpr ⟨by omega, rfl⟩
    exact WorkerState.noConfusion (hdone _ hmem)
  · cases hstep with
    | dequeue pre post entry rest hw hq =>
      exfalso
      have hmem : WorkerState.processing entry ∈ pre ++ .processing entry :: post :=
        List.mem_append.mpr (Or.inr (List.mem_cons_self _ _))
      exact WorkerState.noConfusion (hdone _ hmem)
    | finish pre post hw hq => exact hq
    | complete pre post entry hw =>
      exfalso
      have hmem : WorkerState.writing
          (if oracle entry then c.capturedCount + 1 else c.capturedCount,
           if oracle entry then c.failedCount else c.failedCount + 1) ∈
          pre ++ .writing _ :: post :=
        List.mem_append.mpr (Or.inr (List.mem_cons_self _ _))
      exact WorkerState.noConfusion (hdone _ hmem)
    | persist pre post snapshot hw =>
      exfalso
      have hmem : WorkerState.idle ∈ pre ++ .idle :: post :=
        List.mem_append.mpr (Or.inr (List.mem_cons_self _ _))
      exact WorkerState.noConfusion (hdone _ hmem)

/-- The part of C2 the code does satisfy: for any worker count `n ≥ 1`,
any oracle and any interleaving that drains the queue, the IN-MEMORY
counters satisfy `capturedCount + failedCount = totalPages` and the
counted entries are a permutation of the submitted URL list — every URL
is processed and counted exactly once.  What C2 additionally asserts
about the PERSISTED pair fails; see the stale-write trace below. -/
theorem processSiteCapture_memory_counters_exact
    (oracle : Sitemap.SitemapUrl → Bool) (urls : List Sitemap.SitemapUrl)
    (n : Nat) (st : OrchState) (hn : 1 ≤ n)
    (hreach : Reachable oracle (initState urls n) st) (hdone : AllDone st) :
    st.capturedCount + st.failedCount = urls.length ∧
    st.processed.Perm urls := by
  obtain ⟨hcount, hacct⟩ := inv_reachable oracle urls n st hreach
  have hq := queue_empty_of_allDone oracle urls n st hn hreach hdone
  have hif : inFlight st.workers = [] := inFlight_eq_nil st.workers hdone
  rw [hq, hif] at hacct
  simp only [Multiset.coe_nil, add_zero] at hacct
  have hperm : st.processed.Perm urls := Multiset.coe_eq_coe.mp hacct
  exact ⟨by rw [hcount, hperm.length_eq], hperm⟩

/-- C5: once the workers have drained the queue, the status written by
`completeSiteCapture` is `completed` exactly when at least one capture
succeeded, and `failed` exactly when none did — however many failed. -/
theorem processSiteCapture_final_status_iff
    (oracle : Sitemap.SitemapUrl → Bool) (urls : List Sitemap.SitemapUrl)
    (n : Nat) (st : OrchState) (hn : 1 ≤ n)
    (hreach : Reachable oracle (initState urls n) st) (hdone : AllDone st) :
    (finalStatus st = .completed ↔ 0 < st.capturedCount) ∧
    (finalStatus st = .failed ↔ st.capturedCount = 0) := by
  by_cases h : 0 < st.capturedCount <;> simp [finalStatus, h] <;> omega

/-- The two pages of the witness run. -/
def exUrlA : Sitemap.SitemapUrl := { loc := "https://ex.com/a", lastmod := none, priority := none }

/-- The second page of the witness run; its capture fails. -/
def exUrlB : Sitemap.SitemapUrl := { loc := "https://ex.com/b", lastmod := none, priority := none }

/-- The sorted URL list of the witness run. -/
def exUrls : List Sitemap.SitemapUrl := [exUrlA, exUrlB]

/-- Capture succeeds exactly for page `a`. -/
def exOracle : Sitemap.SitemapUrl → Bool := fun e => decide (e.loc = "https://ex.com/a")

/-- Witness run, after the single worker dequeued page `a`. -/
def exSt1 : OrchState :=
  { queue := [exUrlB], workers := [.processing exUrlA],
    capturedCount := 0, failedCount := 0, progress := (0, 0), processed := [] }

/-- Witness run, after page `a` was captured and counted and its
progress UPDATE was issued. -/
def exSt2 : OrchState :=
  { queue := [exUrlB], workers := [.writing (1, 0)],
    capturedCount := 1, failedCount := 0, progress := (0, 0), processed := [exUrlA] }

/-- Witness run, after the `(1, 0)` UPDATE applied. -/
def exSt3 : OrchState :=
  { queue := [exUrlB], workers := [.idle],
    capturedCount := 1, failedCount := 0, progress := (1, 0), processed := [exUrlA] }

/-- Witness run, after the worker dequeued page `b`. -/
def exSt4 : OrchState :=
  { queue := [], workers := [.processing exUrlB],
    capturedCount := 1, failedCount := 0, progress := (1, 0), processed := [exUrlA] }

/-- Witness run, after page `b` failed and was counted and its progress
UPDATE was issued. -/
def exSt5 : OrchState :=
  { queue := [], workers := [.writing (1, 1)],
    capturedCount := 1, failedCount := 1, progress := (1, 0), processed := [exUrlA, exUrlB] }

/-- Witness run, after the `(1, 1)` UPDATE applied. -/
def exSt6 : OrchState :=
  { queue := [], workers := [.idle],
    capturedCount := 1, failedCount := 1, progress := (1, 1), processed := [exUrlA, exUrlB] }

/-- Witness run, terminal state: the worker saw the empty queue and
returned. -/
def exFinal : OrchState :=
  { queue := [], workers := [.done],
    capturedCount := 1, failedCount := 1, progress := (1, 1), processed := [exUrlA, exUrlB] }

theorem exRun_reachable : Reachable exOracle (initState exUrls 1) exFinal := by
  have h1 : Step exOracle (initState exUrls 1) exSt1 :=
    Step.dequeue (initState exUrls 1) [] [] exUrlA [exUrlB] rfl rfl
  have h2 : Step exOracle exSt1 exSt2 :=
    Step.complete exSt1 [] [] exUrlA rfl
  have h3 : Step exOracle exSt2 exSt3 :=
    Step.persist exSt2 [] [] (1, 0) rfl
  have h4 : Step exOracle exSt3 exSt4 :=
    Step.dequeue exSt3 [] [] exUrlB [] rfl rfl
  have h5 : Step exOracle exSt4 exSt5 :=
    Step.complete exSt4 [] [] exUrlB rfl
  have h6 : Step exOracle exSt5 exSt6 :=
    Step.persist exSt5 [] [] (1, 1) rfl
  have h7 : Step exOracle exSt6 exFinal :=
    Step.finish exSt6 [] [] rfl rfl
  exact Relation.ReflTransGen.tail
    (Relation.ReflTransGen.tail
      (Relation.ReflTransGen.tail
        (Relation.ReflTransGen.tail
          (Relation.ReflTransGen.tail
            (Relation.ReflTransGen.tail
              (Relation.ReflTransGen.tail Relation.ReflTransGen.refl h1) h2) h3) h4) h5) h6) h7

/-- Stale-write trace, two workers: worker 0 dequeued page `a`. -/
def staleW1 : OrchState :=
  { queue := [exUrlB], workers := [.processing exUrlA, .idle],
    capturedCount := 0, failedCount := 0, progress := (0, 0), processed := [] }

/-- Stale-write trace: worker 1 dequeued page `b`; both captures are in
flight. -/
def staleW2 : OrchState :=
  { queue := [], workers := [.processing exUrlA, .processing exUrlB],
    capturedCount := 0, failedCount := 0, progress := (0, 0), processed := [] }

/-- Stale-write trace: page `a` succeeded; worker 0 issued
`UPDATE ... SET captured_pages = 1, failed_pages = 0`. -/
def staleW3 : OrchState :=
  { queue := [], workers := [.writing (1, 0), .processing exUrlB],
    capturedCount := 1, failedCount := 0, progress := (0, 0), processed := [exUrlA] }

/-- Stale-write trace: page `b` failed; worker 1 issued
`UPDATE ... SET captured_pages = 1, failed_pages = 1`; both UPDATEs are
now in flight on separate pooled connections. -/
def staleW4 : OrchState :=
  { queue := [], workers := [.writing (1, 0), .writing (1, 1)],
    capturedCount := 1, failedCount := 1, progress := (0, 0),
    processed := [exUrlA, exUrlB] }

/-- Stale-write trace: worker 1's fresher `(1, 1)` UPDATE applies
first. -/
def staleW5 : OrchState :=
  { queue := [], workers := [.writing (1, 0), .idle],
    capturedCount := 1, failedCount := 1, progress := (1, 1),
    processed := [exUrlA, exUrlB] }

/-- Stale-write trace: worker 0's stale `(1, 0)` UPDATE applies last,
overwriting the fresher pair. -/
def staleW6 : OrchState :=
  { queue := [], workers := [.idle, .idle],
    capturedCount := 1, failedCount := 1, progress := (1, 0),
    processed := [exUrlA, exUrlB] }

/-- Stale-write trace: worker 0 sees the empty queue and returns. -/
def staleW7 : OrchState :=
  { queue := [], workers := [.done, .idle],
    capturedCount := 1, failedCount := 1, progress := (1, 0),
    processed := [exUrlA, exUrlB] }

/-- Stale-write trace, terminal state: both workers returned;
`completeSiteCapture` will write only `status` and `completed_at`, so
the job row keeps `captured_pages = 1, failed_pages = 0` forever. -/
def staleFinal : OrchState :=
  { queue := [], workers := [.done, .done],
    capturedCount := 1, failedCount := 1, progress := (1, 0),
    processed := [exUrlA, exUrlB] }

/-- C2: with `SITE_CAPTURE_CONCURRENCY = 2` workers and two URLs, a
schedulable interleaving in which the two in-flight absolute-value
progress UPDATEs apply out of issue order reaches a terminal state
whose in-memory counters are exact but whose persisted pair is the
stale `(1, 0)` — so `capturedPages + failedPages = 1 ≠ 2 = totalPages`
in the job row, refuting the claimed equality for worker counts ≥ 2. -/
theorem processSiteCapture_stale_final_progress :
    Reachable exOracle (initState exUrls 2) staleFinal ∧
    AllDone staleFinal ∧
    staleFinal.capturedCount + staleFinal.failedCount = exUrls.length ∧
    staleFinal.processed.Perm exUrls ∧
    staleFinal.progress = (1, 0) ∧
    ¬ staleFinal.progress.1 + staleFinal.progress.2 = exUrls.length := by
  refine ⟨?_, by decide, by decide, by decide, by decide, by decide⟩
  have h1 : Step exOracle (initState exUrls 2) staleW1 :=
    Step.dequeue (initState exUrls 2) [] [.idle] exUrlA [exUrlB] rfl rfl
  have h2 : Step exOracle staleW1 staleW2 :=
    Step.dequeue staleW1 [.processing exUrlA] [] exUrlB [] rfl rfl
  have h3 : Step exOracle staleW2 staleW3 :=
    Step.complete staleW2 [] [.processing exUrlB] exUrlA rfl
  have h4 : Step exOracle staleW3 staleW4 :=
    Step.complete staleW3 [.writing (1, 0)] [] exUrlB rfl
  have h5 : Step exOracle staleW4 staleW5 :=
    Step.persist staleW4 [.writing (1, 0)] [] (1, 1) rfl
  have h6 : Step exOracle staleW5 staleW6 :=
    Step.persist staleW5 [] [.idle] (1, 0) rfl
  have h7 : Step exOracle staleW6 staleW7 :=
    Step.finish staleW6 [] [.idle] rfl rfl
  have h8 : Step exOracle staleW7 staleFinal :=
    Step.finish staleW7 [.done] [] rfl rfl
  exact Relation.ReflTransGen.tail
    (Relation.ReflTransGen.tail
      (Relation.ReflTransGen.tail
        (Relation.ReflTransGen.tail
          (Relation.ReflTransGen.tail
            (Relation.ReflTransGen.tail
              (Relation.ReflTransGen.tail
                (Relation.ReflTransGen.tail Relation.ReflTransGen.refl h1) h2) h3) h4) h5) h6)
      h7) h8

/-- Witness for the C5 theorem on the same run: one page succeeded, one
failed, and the job still completes. -/
theorem processSiteCapture_final_status_iff_witness :
    (1 ≤ 1 ∧ AllDone exFinal) ∧
    ((finalStatus exFinal = .completed ↔ 0 < exFinal.capturedCount) ∧
      (finalStatus exFinal = .failed ↔ exFinal.capturedCount = 0)) :=
  ⟨⟨by decide, by decide⟩,
   processSiteCapture_final_status_iff exOracle exUrls 1 exFinal
     (by decide) exRun_reachable (by decide)⟩

end Site

namespace Pool

/-- Ghost log of the pool's externally visible events: a caller admitted
on the fast path of `acquirePage`, a caller pushed onto `pageQueue`, a
release's hand-off re-incrementing `activePages` for a queued lease
(the freed capacity being granted to it), and a caller actually
receiving a page (its `acquirePage` promise resolving). -/
inductive PoolEvent where
  | admitted (c : Nat)
  | queuedEv (c : Nat)
  | granted (w : Nat)
  | served (c : Nat)
deriving DecidableEq, Repr

/-- The module-level state of src/unnamed/part_005 (lines 10-16) plus
the control points of the in-flight `acquirePage` / `releasePage`
calls, one list per `await` suspension point, with callers named by
numeric ids:

* `notStarted`: callers that have not yet invoked `acquirePage`;
* `opening`: callers past the synchronous `activePages++` (line 92),
  suspended in `initBrowser()` / `newPage()` / `setUserAgent` (lines
  93-96);
* `pageQueue`: callers parked at line 103 (`pageQueue.push`), FIFO;
* `holding`: callers whose `acquirePage` resolved with a page;
* `closingWait`: callers inside `releasePage` suspended in
  `page.close()` (line 110);
* `handoffPre (c, w)`: releaser `c` past the synchronous block
  `activePages--; shift w` (lines 115-119), suspended in
  `initBrowser()` (line 122) — before the re-increment;
* `handoffPost (c, w)`: releaser `c` past `activePages++` (line 123),
  suspended in `newPage()` / `setUserAgent` (lines 124-125) before
  `next.resolve` (line 126);
* `finished`: callers whose `releasePage` returned.

`isShuttingDown` stays `false` (no shutdown in the claims), and page
creation failures (line 127) are not exercised. -/
structure PoolState where
  activePages : Int
  pageQueue : List Nat
  notStarted : List Nat
  opening : List Nat
  holding : List Nat
  closingWait : List Nat
  handoffPre : List (Nat × Nat)
  handoffPost : List (Nat × Nat)
  finished : List Nat
  events : List PoolEvent
deriving DecidableEq, Repr

/-- One scheduler step: a synchronous slice of `acquirePage`
(src/unnamed/part_005, lines 87-106) or `releasePage` (lines 108-132),
between two `await` points.

* `acquireAdmitted`: the fast path `activePages < maxConcurrentPages`
  (lines 91-92): increment and move to `opening`.
* `acquireQueued`: the slow path (lines 101-105): push onto the FIFO
  queue.
* `openComplete`: the fast path's awaited page arrives; the caller now
  holds a page.
* `releaseStart`: a holder calls `releasePage` and suspends in
  `page.close()`.
* `releaseHandoff`: resumption after `close` with a non-empty queue:
  `activePages--`, `shift` the queue head `w` (lines 115-119), then
  suspend in `initBrowser()` — the decrement is now visible while the
  re-increment has not happened yet.
* `releaseNoQueue`: resumption after `close` with an empty queue:
  just `activePages--`.
* `handoffIncr`: resumption after `initBrowser()`: `activePages++`
  (line 123); the freed capacity is granted to `w`.
* `handoffResolve`: the awaited fresh page arrives and
  `next.resolve(newPage)` runs (line 126): `w` now holds a page and the
  releaser returns. -/
inductive PoolStep (max : Int) : PoolState → PoolState → Prop where
  | acquireAdmitted (s : PoolState) (c : Nat)
      (hc : c ∈ s.notStarted) (hcap : s.activePages < max) :
      PoolStep max s
        { s with notStarted := s.notStarted.erase c,
                 opening := c :: s.opening,
                 activePages := s.activePages + 1,
                 events := s.events ++ [.admitted c] }
  | acquireQueued (s : PoolState) (c : Nat)
      (hc : c ∈ s.notStarted) (hcap : ¬ s.activePages < max) :
      PoolStep max s
        { s with notStarted := s.notStarted.erase c,
                 pageQueue := s.pageQueue ++ [c],
                 events := s.events ++ [.queuedEv c] }
  | openComplete (s : PoolState) (c : Nat) (hc : c ∈ s.opening) :
      PoolStep max s
        { s with opening := s.opening.erase c,
                 holding := c :: s.holding,
                 events := s.events ++ [.served c] }
  | releaseStart (s : PoolState) (c : Nat) (hc : c ∈ s.holding) :
      PoolStep max s
        { s with holding := s.holding.erase c,
                 closingWait := c :: s.closingWait }
  | releaseHandoff (s : PoolState) (c w : Nat) (rest : List Nat)
      (hc : c ∈ s.closingWait) (hq : s.pageQueue = w :: rest) :
      PoolStep max s
        { s with closingWait := s.closingWait.erase c,
                 activePages := s.activePages - 1,
                 pageQueue := rest,
                 handoffPre := (c, w) :: s.handoffPre }
  | releaseNoQueue (s : PoolState) (c : Nat)
      (hc : c ∈ s.closingWait) (hq : s.pageQueue = []) :
      PoolStep max s
        { s with closingWait := s.closingWait.erase c,
                 activePages := s.activePages - 1,
                 finished := c :: s.finished }
  | handoffIncr (s : PoolState) (c w : Nat) (h : (c, w) ∈ s.handoffPre) :
      PoolStep max s
        { s with handoffPre := s.handoffPre.erase (c, w),
                 handoffPost := (c, w) :: s.handoffPost,
                 activePages := s.activePages + 1,
                 events := s.events ++ [.granted w] }
  | handoffResolve (s : PoolState) (c w : Nat) (h : (c, w) ∈ s.handoffPost) :
      PoolStep max s
        { s with handoffPost := s.handoffPost.erase (c, w),
                 holding := w :: s.holding,
                 finished := c :: s.finished,
                 events := s.events ++ [.served w] }

/-- Any interleaving of the callers' slices. -/
def PoolReachable (max : Int) : PoolState → PoolState → Prop :=
  Relation.ReflTransGen (PoolStep max)

/-- Fresh pool with a set of callers that have not called in yet. -/
def initPool (clients : List Nat) : PoolState :=
  { activePages := 0, pageQueue := [], notStarted := clients, opening := [],
    holding := [], closingWait := [], handoffPre := [], handoffPost := [],
    finished := [], events := [] }

/-- Race trace, ceiling 1: caller 1 admitted. -/
def poolT1 : PoolState :=
  { activePages := 1, pageQueue := [], notStarted := [2, 3], opening := [1],
    holding := [], closingWait := [], handoffPre := [], handoffPost := [],
    finished := [], events := [.admitted 1] }

/-- Race trace: caller 1 holds its page. -/
def poolT2 : PoolState :=
  { activePages := 1, pageQueue := [], notStarted := [2, 3], opening := [],
    holding := [1], closingWait := [], handoffPre := [], handoffPost := [],
    finished := [], events := [.admitted 1, .served 1] }

/-- Race trace: caller 2 queued (pool full). -/
def poolT3 : PoolState :=
  { activePages := 1, pageQueue := [2], notStarted := [3], opening := [],
    holding := [1], closingWait := [], handoffPre := [], handoffPost := [],
    finished := [], events := [.admitted 1, .served 1, .queuedEv 2] }

/-- Race trace: caller 1 releasing, suspended in `page.close()`. -/
def poolT4 : PoolState :=
  { activePages := 1, pageQueue := [2], notStarted := [3], opening := [],
    holding := [], closingWait := [1], handoffPre := [], handoffPost := [],
    finished := [], events := [.admitted 1, .served 1, .queuedEv 2] }

/-- Race trace: the release decremented `activePages` and dequeued the
head lease 2, now suspended in `initBrowser()` before re-incrementing. -/
def poolT5 : PoolState :=
  { activePages := 0, pageQueue := [], notStarted := [3], opening := [],
    holding := [], closingWait := [], handoffPre := [(1, 2)], handoffPost := [],
    finished := [], events := [.admitted 1, .served 1, .queuedEv 2] }

/-- Race trace: caller 3's fresh `acquirePage` lands inside the release
window, sees `activePages = 0 < 1` and is admitted. -/
def poolT6 : PoolState :=
  { activePages := 1, pageQueue := [], notStarted := [], opening := [3],
    holding := [], closingWait := [], handoffPre := [(1, 2)], handoffPost := [],
    finished := [], events := [.admitted 1, .served 1, .queuedEv 2, .admitted 3] }

/-- Race trace: the release resumes and re-increments for the queued
lease — `activePages = 2` under a ceiling of 1. -/
def poolT7 : PoolState :=
  { activePages := 2, pageQueue := [], notStarted := [], opening := [3],
    holding := [], closingWait := [], handoffPre := [], handoffPost := [(1, 2)],
    finished := [],
    events := [.admitted 1, .served 1, .queuedEv 2, .admitted 3, .granted 2] }

/-- Race trace: caller 3 receives its page before the queued lease 2. -/
def poolT8 : PoolState :=
  { activePages := 2, pageQueue := [], notStarted := [], opening := [],
    holding := [3], closingWait := [], handoffPre := [], handoffPost := [(1, 2)],
    finished := [],
    events := [.admitted 1, .served 1, .queuedEv 2, .admitted 3, .granted 2, .served 3] }

/-- Race trace: the hand-off finally resolves lease 2. -/
def poolT9 : PoolState :=
  { activePages := 2, pageQueue := [], notStarted := [], opening := [],
    holding := [2, 3], closingWait := [], handoffPre := [], handoffPost := [],
    finished := [1],
    events := [.admitted 1, .served 1, .queuedEv 2, .admitted 3, .granted 2,
               .served 3, .served 2] }

theorem poolRace_mid_reachable : PoolReachable 1 (initPool [1, 2, 3]) poolT6 := by
  have h1 : PoolStep 1 (initPool [1, 2, 3]) poolT1 :=
    PoolStep.acquireAdmitted (initPool [1, 2, 3]) 1 (by decide) (by decide)
  have h2 : PoolStep 1 poolT1 poolT2 :=
    PoolStep.openComplete poolT1 1 (by decide)
  have h3 : PoolStep 1 poolT2 poolT3 :=
    PoolStep.acquireQueued poolT2 2 (by decide) (by decide)
  have h4 : PoolStep 1 poolT3 poolT4 :=
    PoolStep.releaseStart poolT3 1 (by decide)
  have h5 : PoolStep 1 poolT4 poolT5 :=
    PoolStep.releaseHandoff poolT4 1 2 [] (by decide) rfl
  have h6 : PoolStep 1 poolT5 poolT6 :=
    PoolStep.acquireAdmitted poolT5 3 (by decide) (by decide)
  exact Relation.ReflTransGen.tail
    (Relation.ReflTransGen.tail
      (Relation.ReflTransGen.tail
        (Relation.ReflTransGen.tail
          (Relation.ReflTransGen.tail
            (Relation.ReflTransGen.tail Relation.ReflTransGen.refl h1) h2) h3) h4) h5) h6

/-- C1: under ceiling `maxConcurrentPages = 1`, the schedule
acquire(1) → open → queue(2) → release(1) past its decrement →
acquire(3) admitted inside the hand-off window → hand-off re-increment
drives `activePages` to 2, exceeding the ceiling. -/
theorem pool_ceiling_exceeded_in_release_window :
    PoolReachable 1 (initPool [1, 2, 3]) poolT7 ∧
    poolT7.activePages = 2 ∧ ¬ poolT7.activePages ≤ 1 := by
  refine ⟨?_, by decide, by decide⟩
  have h7 : PoolStep 1 poolT6 poolT7 :=
    PoolStep.handoffIncr poolT6 1 2 (by decide)
  exact Relation.ReflTransGen.tail poolRace_mid_reachable h7

/-- C6: in the same schedule, caller 3's top-level acquire is issued
while the hand-off of the freed capacity to the queued head 2 is still
pending (`(1, 2) ∈ handoffPre`), 3 is admitted at once, and in the
completed trace 3 is served a page strictly before lease 2 is — the
freed capacity is not granted to the queue head first. -/
theorem pool_fifo_bypassed_in_release_window :
    PoolReachable 1 (initPool [1, 2, 3]) poolT6 ∧
    ((1, 2) ∈ poolT6.handoffPre ∧
      poolT6.events = [.admitted 1, .served 1, .queuedEv 2, .admitted 3]) ∧
    PoolReachable 1 poolT6 poolT9 ∧
    poolT9.events = [.admitted 1, .served 1, .queuedEv 2, .admitted 3,
                     .granted 2, .served 3, .served 2] ∧
    poolT9.events.take 6 =
      [.admitted 1, .served 1, .queuedEv 2, .admitted 3, .granted 2, .served 3] ∧
    PoolEvent.served 2 ∉ poolT9.events.take 6 := by
  refine ⟨poolRace_mid_reachable, ⟨by decide, by decide⟩, ?_, by decide, by decide, by decide⟩
  have h7 : PoolStep 1 poolT6 poolT7 :=
    PoolStep.handoffIncr poolT6 1 2 (by decide)
  have h8 : PoolStep 1 poolT7 poolT8 :=
    PoolStep.openComplete poolT7 3 (by decide)
  have h9 : PoolStep 1 poolT8 poolT9 :=
    PoolStep.handoffResolve poolT8 1 2 (by decide)
  exact Relation.ReflTransGen.tail
    (Relation.ReflTransGen.tail
      (Relation.ReflTransGen.tail Relation.ReflTransGen.refl h7) h8) h9

end Pool

end Webshot
